import Mathlib

/-!
Verification of the rate-limiting / quota-tracking core of the
`rackners1_datacleanup` backend.

Shallow embedding of:
- `app/core/plan_limits.py` (`PlanLimits.LIMITS`, `get_limits`, `has_feature`),
- `app/core/security.py` (`RateLimiter`, `check_rate_limit`, `get_rate_limiter`),
- `app/core/redis.py` (`RedisClient.get/set/incr/ttl` as used by the limiter,
  over a pure key-value store with per-key expiry).

The store is a function from keys to optional entries; each entry carries a
counter value and an optional absolute expiry instant.  Every store operation
takes the instant at which it executes, so that expiry between two operations
of one `check_rate_limit` call (the race acknowledged by the design) is
expressible.  Python dictionaries with heterogeneous values are embedded as
association lists over a sum of value shapes.
-/

namespace DataCleanup

/-- Modelled from the spec: `PlanType` lives in `app/models/subscription.py`,
which is not part of the sources; spec section 3 defines PlanTier as the
enumerated variant set FREE, PRO, PRO_PLUS, immutable, one per subscription. -/
inductive PlanType where
  | FREE
  | PRO
  | PRO_PLUS
deriving DecidableEq, BEq

/-- Values stored in a plan-limits record: the Python dicts in
`PlanLimits.LIMITS` hold integers and lists of feature-name strings. -/
inductive PlanVal where
  | int : Int → PlanVal
  | strs : List String → PlanVal
deriving DecidableEq

/-- A plan-limits record: a string-keyed dictionary, kept as an association
list in source order (`Dict[str, Any]` in `plan_limits.py`). -/
abbrev PlanRec := List (String × PlanVal)

/-- `PlanLimits.LIMITS[PlanType.FREE]` from `plan_limits.py`. -/
def FREE_LIMITS : PlanRec :=
  [ ("ai_messages_per_period", PlanVal.int 10),
    ("ai_messages_reset_days", PlanVal.int 30),
    ("tool_usage_per_period", PlanVal.int 4),
    ("tool_usage_reset_hours", PlanVal.int 12),
    ("max_file_size_mb", PlanVal.int 5),
    ("max_files_per_chat", PlanVal.int 5),
    ("features", PlanVal.strs
      [ "data_cleaning", "pivot_tables", "formula_assistant",
        "script_assistant", "sql_assistant", "regex_assistant",
        "template_generator" ]) ]

/-- `PlanLimits.LIMITS[PlanType.PRO]` from `plan_limits.py`. -/
def PRO_LIMITS : PlanRec :=
  [ ("ai_messages_per_period", PlanVal.int 3000),
    ("ai_messages_reset_days", PlanVal.int 30),
    ("tool_usage_per_period", PlanVal.int 3000),
    ("tool_usage_reset_days", PlanVal.int 30),
    ("max_file_size_mb", PlanVal.int 50),
    ("max_files_per_chat", PlanVal.int 10),
    ("features", PlanVal.strs
      [ "data_cleaning", "pivot_tables", "formula_assistant",
        "script_assistant", "sql_assistant", "regex_assistant",
        "template_generator" ]) ]

/-- `PlanLimits.LIMITS[PlanType.PRO_PLUS]` from `plan_limits.py`. -/
def PRO_PLUS_LIMITS : PlanRec :=
  [ ("ai_messages_per_period", PlanVal.int 10000),
    ("ai_messages_reset_days", PlanVal.int 30),
    ("tool_usage_per_period", PlanVal.int 10000),
    ("tool_usage_reset_days", PlanVal.int 30),
    ("max_file_size_mb", PlanVal.int 100),
    ("max_files_per_chat", PlanVal.int 15),
    ("features", PlanVal.strs
      [ "data_cleaning", "pivot_tables", "formula_assistant",
        "script_assistant", "sql_assistant", "regex_assistant",
        "template_generator" ]) ]

/-- The static table `PlanLimits.LIMITS` of `plan_limits.py`. -/
def LIMITS : List (PlanType × PlanRec) :=
  [ (PlanType.FREE, FREE_LIMITS),
    (PlanType.PRO, PRO_LIMITS),
    (PlanType.PRO_PLUS, PRO_PLUS_LIMITS) ]

/-- `PlanLimits.get_limits`: `cls.LIMITS.get(plan_type, cls.LIMITS[PlanType.FREE])`;
a table lookup defaulting to the FREE record when the tier is absent. -/
def get_limits (t : PlanType) : PlanRec :=
  match List.lookup t LIMITS with
  | some r => r
  | none => FREE_LIMITS

/-- `PlanLimits.has_feature`: `feature in cls.get_limits(plan_type)["features"]`.
The dictionary subscript is embedded as an association-list lookup returning
`none` where Python would raise (missing key or non-list value). -/
def has_feature (t : PlanType) (f : String) : Option Bool :=
  match List.lookup "features" (get_limits t) with
  | some (PlanVal.strs l) => some (decide (f ∈ l))
  | _ => none

/-- C7: the quota resolver never raises: `get_limits` is total, always
returning one of the three table records; `has_feature` always returns a
boolean, and returns `some false` for every feature string absent from the
tier's feature list. -/
theorem quota_resolver_total_and_failsafe :
    (∀ t : PlanType,
      get_limits t = FREE_LIMITS ∨ get_limits t = PRO_LIMITS ∨
        get_limits t = PRO_PLUS_LIMITS) ∧
    (∀ (t : PlanType) (f : String), ∃ b : Bool, has_feature t f = some b) ∧
    (∀ (t : PlanType) (f : String) (l : List String),
      List.lookup "features" (get_limits t) = some (PlanVal.strs l) →
        f ∉ l → has_feature t f = some false) := by
  refine ⟨?_, ?_, ?_⟩
  · intro t
    cases t
    · exact Or.inl rfl
    · exact Or.inr (Or.inl rfl)
    · exact Or.inr (Or.inr rfl)
  · intro t f
    cases t <;> exact ⟨_, rfl⟩
  · intro t f l hl hf
    simp only [has_feature]
    rw [hl]
    simp [hf]

theorem quota_resolver_total_and_failsafe_witness :
    has_feature PlanType.PRO "no_such_feature" = some false :=
  quota_resolver_total_and_failsafe.2.2 PlanType.PRO "no_such_feature"
    [ "data_cleaning", "pivot_tables", "formula_assistant",
      "script_assistant", "sql_assistant", "regex_assistant",
      "template_generator" ]
    (by decide) (by decide)

/-- C8: reference-configuration values: FREE allows 10 AI messages and
PRO_PLUS 10000 per period; `has_feature FREE "data_cleaning"` holds and
`has_feature FREE "nonexistent_feature"` does not; PRO allows 3000 tool uses
with a 30-day reset while FREE allows 4 tool uses with a 12-hour reset. -/
theorem reference_configuration_values :
    List.lookup "ai_messages_per_period" (get_limits PlanType.FREE)
        = some (PlanVal.int 10) ∧
    List.lookup "ai_messages_per_period" (get_limits PlanType.PRO_PLUS)
        = some (PlanVal.int 10000) ∧
    has_feature PlanType.FREE "data_cleaning" = some true ∧
    has_feature PlanType.FREE "nonexistent_feature" = some false ∧
    List.lookup "tool_usage_per_period" (get_limits PlanType.PRO)
        = some (PlanVal.int 3000) ∧
    List.lookup "tool_usage_reset_days" (get_limits PlanType.PRO)
        = some (PlanVal.int 30) ∧
    List.lookup "tool_usage_per_period" (get_limits PlanType.FREE)
        = some (PlanVal.int 4) ∧
    List.lookup "tool_usage_reset_hours" (get_limits PlanType.FREE)
        = some (PlanVal.int 12) := by
  decide

/-- C9: feature gating is tier-invariant: every feature string gets the same
`has_feature` answer under FREE, PRO and PRO_PLUS, because the three static
feature lists are identical. -/
theorem has_feature_tier_invariant (f : String) :
    has_feature PlanType.FREE f = has_feature PlanType.PRO f ∧
    has_feature PlanType.PRO f = has_feature PlanType.PRO_PLUS f :=
  ⟨rfl, rfl⟩

/-- C10: the per-tier records are not uniform in shape: FREE carries
`tool_usage_reset_hours` (12) and no `tool_usage_reset_days`, while PRO and
PRO_PLUS carry `tool_usage_reset_days` (30) and no `tool_usage_reset_hours`;
looking up the other shape's key in `get_limits` yields absent. -/
theorem reset_period_keys_not_uniform :
    List.lookup "tool_usage_reset_hours" (get_limits PlanType.FREE)
        = some (PlanVal.int 12) ∧
    List.lookup "tool_usage_reset_days" (get_limits PlanType.FREE) = none ∧
    List.lookup "tool_usage_reset_days" (get_limits PlanType.PRO)
        = some (PlanVal.int 30) ∧
    List.lookup "tool_usage_reset_hours" (get_limits PlanType.PRO) = none ∧
    List.lookup "tool_usage_reset_days" (get_limits PlanType.PRO_PLUS)
        = some (PlanVal.int 30) ∧
    List.lookup "tool_usage_reset_hours" (get_limits PlanType.PRO_PLUS)
        = none := by
  decide

/-- One counter-store entry: the stored integer value (the limiter only ever
stores decimal counters via `set(key, "1")` and `incr`) and its optional
absolute expiry instant (`none` means no expiry, as for a key created by a
bare `INCR`). -/
structure Entry where
  value : Int
  expiresAt : Option Int
deriving DecidableEq

/-- The counter store: a key-value map with per-key expiry, the state behind
the `redis_client` singleton of `app/core/redis.py`. -/
def Store : Type := String → Option Entry

/-- The store with no keys. -/
def emptyStore : Store := fun _ => none

/-- Whether an entry has expired at instant `t` (expiry is lazy: an expired
entry behaves exactly like an absent key). -/
def Entry.isExpired (e : Entry) (t : Int) : Bool :=
  match e.expiresAt with
  | some x => decide (x ≤ t)
  | none => false

/-- The entry visible at instant `t`, hiding expired entries. -/
def liveEntry (s : Store) (t : Int) (k : String) : Option Entry :=
  match s k with
  | some e => if e.isExpired t then none else some e
  | none => none

/-- `RedisClient.get`: the stored value, or `none` when the key is absent or
expired (the caller converts the decimal string with `int(...)`). -/
def redis_get (s : Store) (t : Int) (k : String) : Option Int :=
  (liveEntry s t k).map Entry.value

/-- `RedisClient.set` with optional expiry `ex` seconds: overwrites the key
with the value and an absolute expiry `t + ex`. -/
def redis_set (s : Store) (t : Int) (k : String) (v : Int) (ex : Option Int) :
    Store :=
  fun k2 => if k2 = k then some ⟨v, ex.map (fun w => t + w)⟩ else s k2

/-- `RedisClient.incr`: atomic increment; creates the key with value 1 and no
expiry when absent or expired, otherwise increments preserving the expiry.
Returns the new value and the updated store. -/
def redis_incr (s : Store) (t : Int) (k : String) : Int × Store :=
  match liveEntry s t k with
  | some e =>
      (e.value + 1,
        fun k2 => if k2 = k then some ⟨e.value + 1, e.expiresAt⟩ else s k2)
  | none =>
      (1, fun k2 => if k2 = k then some ⟨1, none⟩ else s k2)

/-- Raw `TTL` reply: remaining seconds, `-1` for a live key without expiry,
`-2` for an absent or expired key. -/
def redis_ttl_raw (s : Store) (t : Int) (k : String) : Int :=
  match liveEntry s t k with
  | some e =>
      match e.expiresAt with
      | some x => x - t
      | none => -1
  | none => -2

/-- `RedisClient.ttl`: `result if result >= -1 else None`. -/
def redis_ttl (s : Store) (t : Int) (k : String) : Option Int :=
  if -1 ≤ redis_ttl_raw s t k then some (redis_ttl_raw s t k) else none

/-- The rate-limit decision dictionary returned by
`RateLimiter.check_rate_limit`; `reset` is optional because the rejection
branch forwards the `ttl` result, which can be `None`. -/
structure Decision where
  allowed : Bool
  limit : Int
  remaining : Int
  reset : Option Int
deriving DecidableEq

/-- The `RateLimiter` class of `app/core/security.py`: allowed request count,
window in seconds, and the client-identification namespace. -/
structure RateLimiter where
  requests : Int
  window : Int
  identifier : String
deriving DecidableEq

/-- The key built in `check_rate_limit`:
`f"rate_limit:{self.identifier}:{key}"`. -/
def RateLimiter.redis_key (rl : RateLimiter) (key : String) : String :=
  "rate_limit:" ++ rl.identifier ++ ":" ++ key

/-- `RateLimiter.check_rate_limit`.  The three instants `t1 t2 t3` are the
times at which the successive awaited store operations execute (`get`, then
`set`/`incr`/first `ttl`, then the `ttl` after an increment); a call whose
operations all run at one instant uses `t t t`. -/
def RateLimiter.check_rate_limit (rl : RateLimiter) (key : String) (s : Store)
    (t1 t2 t3 : Int) : Decision × Store :=
  let rk := rl.redis_key key
  match redis_get s t1 rk with
  | none =>
      ({ allowed := true, limit := rl.requests, remaining := rl.requests - 1,
         reset := some rl.window },
       redis_set s t2 rk 1 (some rl.window))
  | some count =>
      if rl.requests ≤ count then
        ({ allowed := false, limit := rl.requests, remaining := 0,
           reset := redis_ttl s t2 rk }, s)
      else
        ({ allowed := true, limit := rl.requests,
           remaining := rl.requests - count - 1,
           reset := redis_ttl (redis_incr s t2 rk).2 t3 rk },
         (redis_incr s t2 rk).2)

/-- `get_rate_limiter`: builds a `RateLimiter` with the default
`identifier="ip"` (the identifier is never forwarded by any caller). -/
def get_rate_limiter (requests window : Int) : RateLimiter :=
  { requests := requests, window := window, identifier := "ip" }

/-- `n` sequential `check_rate_limit` calls for one limiter and key, starting
from store `s0`, call `j` executing all its store operations at instant
`times j`; yields the final store and the list of decisions in order. -/
def run_checks (rl : RateLimiter) (key : String) (s0 : Store)
    (times : Nat → Int) : Nat → Store × List Decision
  | 0 => (s0, [])
  | n + 1 =>
      let p := run_checks rl key s0 times n
      let q := rl.check_rate_limit key p.1 (times n) (times n) (times n)
      (q.2, p.2 ++ [q.1])

/-- An absent key is not live at any instant. -/
theorem liveEntry_of_none {s : Store} {t : Int} {k : String} (h : s k = none) :
    liveEntry s t k = none := by
  simp [liveEntry, h]

/-- A stored, unexpired entry is live. -/
theorem liveEntry_of_some {s : Store} {t : Int} {k : String} {e : Entry}
    (h : s k = some e) (hx : e.isExpired t = false) :
    liveEntry s t k = some e := by
  simp [liveEntry, h, hx]

/-- A live key with expiry instant `x > t` answers `TTL` with `x - t`. -/
theorem redis_ttl_of_live {s : Store} {t : Int} {k : String} {v x : Int}
    (hl : liveEntry s t k = some ⟨v, some x⟩) (hx : t < x) :
    redis_ttl s t k = some (x - t) := by
  have hraw : redis_ttl_raw s t k = x - t := by
    simp [redis_ttl_raw, hl]
  rw [redis_ttl, hraw, if_pos (by omega)]

/-- Fresh-key branch of `check_rate_limit`: when the key is absent, the call
stores `1` with expiry `window` and allows with `remaining = requests - 1`
and `reset = window`. -/
theorem check_rate_limit_fresh (rl : RateLimiter) (key : String) (s : Store)
    (t1 t2 t3 : Int) (h : liveEntry s t1 (rl.redis_key key) = none) :
    rl.check_rate_limit key s t1 t2 t3
      = ({ allowed := true, limit := rl.requests,
           remaining := rl.requests - 1, reset := some rl.window },
         fun k2 => if k2 = rl.redis_key key
                   then some ⟨1, some (t2 + rl.window)⟩ else s k2) := by
  have hg : redis_get s t1 (rl.redis_key key) = none := by
    simp [redis_get, h]
  simp [RateLimiter.check_rate_limit, hg]
  funext k2
  simp [redis_set]

/-- Rejection branch of `check_rate_limit`: a live count at or above the
limit denies with `remaining = 0`, `reset` the raw `ttl` answer, and leaves
the store untouched. -/
theorem check_rate_limit_reject (rl : RateLimiter) (key : String) (s : Store)
    (t1 t2 t3 : Int) (e : Entry)
    (hl : liveEntry s t1 (rl.redis_key key) = some e)
    (hge : rl.requests ≤ e.value) :
    rl.check_rate_limit key s t1 t2 t3
      = ({ allowed := false, limit := rl.requests, remaining := 0,
           reset := redis_ttl s t2 (rl.redis_key key) }, s) := by
  have hg : redis_get s t1 (rl.redis_key key) = some e.value := by
    simp [redis_get, hl]
  simp [RateLimiter.check_rate_limit, hg, hge]

/-- Increment branch of `check_rate_limit`: a live count below the limit is
incremented and the call allows with `remaining = requests - count - 1`. -/
theorem check_rate_limit_incr (rl : RateLimiter) (key : String) (s : Store)
    (t1 t2 t3 : Int) (e : Entry)
    (hl : liveEntry s t1 (rl.redis_key key) = some e)
    (hlt : e.value < rl.requests) :
    rl.check_rate_limit key s t1 t2 t3
      = ({ allowed := true, limit := rl.requests,
           remaining := rl.requests - e.value - 1,
           reset := redis_ttl (redis_incr s t2 (rl.redis_key key)).2 t3
                      (rl.redis_key key) },
         (redis_incr s t2 (rl.redis_key key)).2) := by
  have hg : redis_get s t1 (rl.redis_key key) = some e.value := by
    simp [redis_get, hl]
  have hn : ¬ rl.requests ≤ e.value := not_le.mpr hlt
  simp [RateLimiter.check_rate_limit, hg, hn]

/-- A live answer means the entry had not expired at that instant. -/
theorem isExpired_false_of_liveEntry {s : Store} {t : Int} {k : String}
    {e : Entry} (h : liveEntry s t k = some e) : e.isExpired t = false := by
  simp only [liveEntry] at h
  cases hs : s k <;> rw [hs] at h
  · simp at h
  · rename_i e2
    by_cases hx : e2.isExpired t
    · simp [hx] at h
    · simp [hx] at h
      rw [← h]
      simp only [Bool.not_eq_true] at hx
      exact hx

/-- Invariant of a run on a key absent from the initial store: after `n`
calls (1 ≤ n ≤ N) whose instants all lie inside the window opened by the
first call, the counter holds `n` with the expiry written by the first call,
and every decision so far allowed with decreasing `remaining`. -/
theorem run_checks_inv (N : Nat) (window : Int) (ident key : String)
    (s0 : Store) (times : Nat → Int)
    (h0 : s0 (RateLimiter.redis_key ⟨(N : Int), window, ident⟩ key) = none)
    (ht : ∀ j, j < N → times j < times 0 + window) :
    ∀ n, 0 < n → n ≤ N →
      (run_checks ⟨(N : Int), window, ident⟩ key s0 times n).1
        = (fun k2 =>
            if k2 = RateLimiter.redis_key ⟨(N : Int), window, ident⟩ key
            then some ⟨(n : Int), some (times 0 + window)⟩ else s0 k2)
      ∧ (run_checks ⟨(N : Int), window, ident⟩ key s0 times n).2
        = (List.range n).map
            (fun j => ⟨true, (N : Int), (N : Int) - (j : Int) - 1,
                       some (times 0 + window - times j)⟩) := by
  intro n
  induction n with
  | zero => intro h; exact absurd h (by simp)
  | succ n ih =>
    intro _ hle
    rcases Nat.eq_zero_or_pos n with hn | hn
    · subst hn
      have hfresh : liveEntry s0 (times 0)
          (RateLimiter.redis_key ⟨(N : Int), window, ident⟩ key) = none :=
        liveEntry_of_none h0
      have hc := check_rate_limit_fresh ⟨(N : Int), window, ident⟩ key s0
        (times 0) (times 0) (times 0) hfresh
      constructor
      · simp only [run_checks, hc]
        funext k2
        by_cases h2 : k2 = RateLimiter.redis_key ⟨(N : Int), window, ident⟩ key
        · simp [h2]
        · simp [h2]
      · simp only [run_checks, hc]
        rw [show List.range 1 = [0] from rfl]
        simp
    · have hnN : n < N := by omega
      have hlt := ht n hnN
      obtain ⟨ihs, ihd⟩ := ih hn (by omega)
      have hsk : (run_checks ⟨(N : Int), window, ident⟩ key s0 times n).1
          (RateLimiter.redis_key ⟨(N : Int), window, ident⟩ key)
          = some ⟨(n : Int), some (times 0 + window)⟩ := by
        rw [ihs]; simp
      have hexp : Entry.isExpired ⟨(n : Int), some (times 0 + window)⟩
          (times n) = false := by
        simp only [Entry.isExpired, decide_eq_false_iff_not, not_le]
        omega
      have hlive : liveEntry
          (run_checks ⟨(N : Int), window, ident⟩ key s0 times n).1 (times n)
          (RateLimiter.redis_key ⟨(N : Int), window, ident⟩ key)
          = some ⟨(n : Int), some (times 0 + window)⟩ :=
        liveEntry_of_some hsk hexp
      have hvlt : ((⟨(n : Int), some (times 0 + window)⟩ : Entry)).value
          < (⟨(N : Int), window, ident⟩ : RateLimiter).requests := by
        show (n : Int) < (N : Int)
        exact_mod_cast hnN
      have hc := check_rate_limit_incr ⟨(N : Int), window, ident⟩ key
        (run_checks ⟨(N : Int), window, ident⟩ key s0 times n).1
        (times n) (times n) (times n) ⟨(n : Int), some (times 0 + window)⟩
        hlive hvlt
      have hincr : (redis_incr
            (run_checks ⟨(N : Int), window, ident⟩ key s0 times n).1 (times n)
            (RateLimiter.redis_key ⟨(N : Int), window, ident⟩ key)).2
          = fun k2 =>
              if k2 = RateLimiter.redis_key ⟨(N : Int), window, ident⟩ key
              then some ⟨(n : Int) + 1, some (times 0 + window)⟩ else s0 k2 := by
        simp only [redis_incr, hlive]
        funext k2
        by_cases h2 : k2 = RateLimiter.redis_key ⟨(N : Int), window, ident⟩ key
        · simp [h2]
        · simp [h2]
          rw [ihs]
          simp [h2]
      have hexp2 : Entry.isExpired ⟨(n : Int) + 1, some (times 0 + window)⟩
          (times n) = false := by
        simp only [Entry.isExpired, decide_eq_false_iff_not, not_le]
        omega
      have hlive2 : liveEntry (redis_incr
            (run_checks ⟨(N : Int), window, ident⟩ key s0 times n).1 (times n)
            (RateLimiter.redis_key ⟨(N : Int), window, ident⟩ key)).2 (times n)
          (RateLimiter.redis_key ⟨(N : Int), window, ident⟩ key)
          = some ⟨(n : Int) + 1, some (times 0 + window)⟩ := by
        rw [hincr]
        exact liveEntry_of_some (by simp) hexp2
      have httl := redis_ttl_of_live hlive2 (by omega)
      constructor
      · simp only [run_checks, hc]
        rw [hincr]
        funext k2
        by_cases h2 : k2 = RateLimiter.redis_key ⟨(N : Int), window, ident⟩ key
        · simp [h2, Nat.cast_succ]
        · simp [h2]
      · simp only [run_checks, hc]
        rw [ihd, httl, List.range_succ, List.map_append]
        simp

/-- C1: for every `max_requests = N > 0` and `window_seconds > 0`, `N`
sequential `check_rate_limit` calls for a key absent from the store, all
within the window opened by the first call, return `allowed = true` with
`remaining` strictly decreasing from `N - 1` down to `0`; the first call
stores count `1` expiring `window_seconds` after it and returns
`limit = N`, `reset = window_seconds`. -/
theorem fresh_key_n_calls (N : Nat) (hN : 0 < N) (window : Int)
    (hw : 0 < window) (ident key : String) (s0 : Store) (times : Nat → Int)
    (h0 : s0 (RateLimiter.redis_key ⟨(N : Int), window, ident⟩ key) = none)
    (ht : ∀ j, j < N → times j < times 0 + window) :
    (run_checks ⟨(N : Int), window, ident⟩ key s0 times N).2
      = (List.range N).map
          (fun j => ⟨true, (N : Int), (N : Int) - (j : Int) - 1,
                     some (times 0 + window - times j)⟩)
    ∧ (run_checks ⟨(N : Int), window, ident⟩ key s0 times 1).1
        (RateLimiter.redis_key ⟨(N : Int), window, ident⟩ key)
        = some ⟨1, some (times 0 + window)⟩
    ∧ (run_checks ⟨(N : Int), window, ident⟩ key s0 times 1).2
        = [⟨true, (N : Int), (N : Int) - 1, some window⟩] := by
  obtain ⟨hsN, hdN⟩ :=
    run_checks_inv N window ident key s0 times h0 ht N hN (le_refl N)
  obtain ⟨hs1, hd1⟩ :=
    run_checks_inv N window ident key s0 times h0 ht 1 (by omega) hN
  refine ⟨hdN, ?_, ?_⟩
  · rw [hs1]
    simp
  · rw [hd1]
    rw [show List.range 1 = [0] from rfl]
    simp

theorem fresh_key_n_calls_witness :
    (run_checks ⟨((3 : Nat) : Int), 60, "ip"⟩ "1.2.3.4" emptyStore
        (fun _ => 0) 3).2
      = [⟨true, 3, 2, some 60⟩, ⟨true, 3, 1, some 60⟩, ⟨true, 3, 0, some 60⟩]
    ∧ (run_checks ⟨((3 : Nat) : Int), 60, "ip"⟩ "1.2.3.4" emptyStore
        (fun _ => 0) 1).1
        (RateLimiter.redis_key ⟨((3 : Nat) : Int), 60, "ip"⟩ "1.2.3.4")
        = some ⟨1, some 60⟩ := by
  have h := fresh_key_n_calls 3 (by decide) 60 (by decide) "ip" "1.2.3.4"
    emptyStore (fun _ => 0) rfl
    (fun j hj => by show (0 : Int) < 0 + 60; omega)
  refine ⟨?_, ?_⟩
  · rw [h.1]
    decide
  · rw [h.2.1]
    decide

/-- C2: when the stored count for the key is live and at or above
`max_requests`, `check_rate_limit` denies with `remaining = 0` and leaves the
whole store (in particular the stored count) unchanged; repeating the call
therefore returns the identical denial. -/
theorem exhausted_key_rejection_frame (rl : RateLimiter) (key : String)
    (s : Store) (t1 t2 t3 : Int) (e : Entry)
    (hl : liveEntry s t1 (rl.redis_key key) = some e)
    (hge : rl.requests ≤ e.value) :
    rl.check_rate_limit key s t1 t2 t3
      = ({ allowed := false, limit := rl.requests, remaining := 0,
           reset := redis_ttl s t2 (rl.redis_key key) }, s)
    ∧ rl.check_rate_limit key (rl.check_rate_limit key s t1 t2 t3).2 t1 t2 t3
        = rl.check_rate_limit key s t1 t2 t3 := by
  have h1 := check_rate_limit_reject rl key s t1 t2 t3 e hl hge
  refine ⟨h1, ?_⟩
  rw [h1]
  simpa using h1

/-- Store for the C2 witness: a counter at 5 with a pending expiry. -/
def storeC2 : Store :=
  fun k2 => if k2 = "rate_limit:ip:9.9.9.9" then some ⟨5, some 100⟩ else none

theorem exhausted_key_rejection_frame_witness :
    (⟨3, 60, "ip"⟩ : RateLimiter).check_rate_limit "9.9.9.9" storeC2 0 0 0
      = ({ allowed := false, limit := 3, remaining := 0, reset := some 100 },
         storeC2)
    ∧ (⟨3, 60, "ip"⟩ : RateLimiter).check_rate_limit "9.9.9.9"
        ((⟨3, 60, "ip"⟩ : RateLimiter).check_rate_limit "9.9.9.9" storeC2
          0 0 0).2 0 0 0
        = (⟨3, 60, "ip"⟩ : RateLimiter).check_rate_limit "9.9.9.9" storeC2
            0 0 0 :=
  exhausted_key_rejection_frame ⟨3, 60, "ip"⟩ "9.9.9.9" storeC2 0 0 0
    ⟨5, some 100⟩ (by decide) (by decide)

/-- C3: the code shares one counter across guarded actions: every endpoint
builds its limiter through `get_rate_limiter`, which fixes
`identifier = "ip"` and never receives a scope, so the login limiter
(10 per 900 s) and the signup limiter (5 per 3600 s) read and write the same
key `rate_limit:ip:<client-ip>`; five login checks exhaust the signup budget
for that IP, although a fresh signup check would be allowed. -/
theorem login_exhaustion_denies_signup :
    ((get_rate_limiter 5 3600).check_rate_limit "1.2.3.4"
        (run_checks (get_rate_limiter 10 900) "1.2.3.4" emptyStore
          (fun _ => 0) 5).1 0 0 0).1.allowed = false
    ∧ ((get_rate_limiter 5 3600).check_rate_limit "1.2.3.4" emptyStore
        0 0 0).1.allowed = true
    ∧ (get_rate_limiter 10 900).redis_key "1.2.3.4"
        = (get_rate_limiter 5 3600).redis_key "1.2.3.4" := by
  decide

/-- C4 counterexample: `check_rate_limit` with `max_requests = 0` does not
raise; on a fresh key it returns a normal decision with `allowed = true` and
the unclamped `remaining = -1`. -/
theorem check_no_validation_counterexample :
    ((get_rate_limiter 0 60).check_rate_limit "1.2.3.4" emptyStore 0 0 0).1
      = { allowed := true, limit := 0, remaining := -1, reset := some 60 } := by
  decide

/-- C4 amended: neither `RateLimiter` nor `check_rate_limit` validates its
configuration: with `max_requests ≤ 0`, a fresh-key call still returns the
ordinary allow decision with `remaining = max_requests - 1 < 0`, with no
clamping and no error. -/
theorem check_accepts_nonpositive_requests (requests window : Int)
    (hr : requests ≤ 0) (ident key : String) (s : Store) (t1 t2 t3 : Int)
    (hfresh : s (RateLimiter.redis_key ⟨requests, window, ident⟩ key) = none) :
    (RateLimiter.check_rate_limit ⟨requests, window, ident⟩ key s t1 t2 t3).1
      = { allowed := true, limit := requests, remaining := requests - 1,
          reset := some window }
    ∧ requests - 1 < 0 := by
  have h := check_rate_limit_fresh ⟨requests, window, ident⟩ key s t1 t2 t3
    (liveEntry_of_none hfresh)
  rw [h]
  exact ⟨rfl, by omega⟩

theorem check_accepts_nonpositive_requests_witness :
    ((⟨0, 60, "ip"⟩ : RateLimiter).check_rate_limit "8.8.8.8" emptyStore
        0 0 0).1
      = { allowed := true, limit := 0, remaining := -1, reset := some 60 }
    ∧ (0 : Int) - 1 < 0 :=
  check_accepts_nonpositive_requests 0 60 (by decide) "ip" "8.8.8.8"
    emptyStore 0 0 0 rfl

/-- Store for the C5 counterexample: counter 5, expiring at instant 10. -/
def storeC5 : Store :=
  fun k2 => if k2 = "rate_limit:ip:1.2.3.4" then some ⟨5, some 10⟩ else none

/-- C5 counterexample: the key is live at the count read (instant 0) and
expired at the TTL read (instant 10); `check_rate_limit` does not fall back
to a fresh window but returns a denial with a missing reset, leaving the
expired entry untouched. -/
theorem ttl_race_no_fallback_counterexample :
    ((get_rate_limiter 3 60).check_rate_limit "1.2.3.4" storeC5 0 10 10).1
      = { allowed := false, limit := 3, remaining := 0, reset := none }
    ∧ ((get_rate_limiter 3 60).check_rate_limit "1.2.3.4" storeC5 0 10 10).2
        "rate_limit:ip:1.2.3.4" = some ⟨5, some 10⟩ := by
  decide

/-- C5 amended: when the TTL lookup of the rejection branch fails (the key
expired between the count read and the TTL read), `check_rate_limit` still
returns the denial, with `remaining = 0` and `reset` absent, and does not
start a fresh window: the store is returned unchanged. -/
theorem ttl_race_denial_missing_reset (rl : RateLimiter) (key : String)
    (s : Store) (t1 t2 t3 : Int) (e : Entry)
    (hl : liveEntry s t1 (rl.redis_key key) = some e)
    (hge : rl.requests ≤ e.value)
    (httl : redis_ttl s t2 (rl.redis_key key) = none) :
    rl.check_rate_limit key s t1 t2 t3
      = ({ allowed := false, limit := rl.requests, remaining := 0,
           reset := none }, s) := by
  rw [check_rate_limit_reject rl key s t1 t2 t3 e hl hge, httl]

/-- Store for the C5 witness: counter 4, expiring at instant 5. -/
def storeC5w : Store :=
  fun k2 => if k2 = "rate_limit:ip:7.7.7.7" then some ⟨4, some 5⟩ else none

theorem ttl_race_denial_missing_reset_witness :
    (⟨2, 60, "ip"⟩ : RateLimiter).check_rate_limit "7.7.7.7" storeC5w 0 5 5
      = ({ allowed := false, limit := 2, remaining := 0, reset := none },
         storeC5w) :=
  ttl_race_denial_missing_reset ⟨2, 60, "ip"⟩ "7.7.7.7" storeC5w 0 5 5
    ⟨4, some 5⟩ (by decide) (by decide) (by decide)

/-- Store for the C6 counterexample: a counter created under window 3600 (as
the refresh limiter does), still holding 3600 seconds of TTL. -/
def storeC6 : Store :=
  fun k2 => if k2 = "rate_limit:ip:6.6.6.6" then some ⟨20, some 3600⟩ else none

/-- C6 counterexample: a login check (`window = 900`) against a counter whose
expiry was written by the refresh limiter (`window = 3600`) returns
`reset = 3600`, which exceeds the call's `window_seconds = 900`. -/
theorem reset_exceeds_window_counterexample :
    ((get_rate_limiter 10 900).check_rate_limit "6.6.6.6" storeC6 0 0 0).1.reset
      = some 3600
    ∧ ¬ ((3600 : Int) ≤ 900) := by
  decide

/-- C6 amended: for a call whose store operations all run at one instant `t`,
with `window_seconds > 0` and every live entry at the key carrying an expiry
no later than `t + window_seconds` (as entries created under this window do),
the returned `reset` is present and satisfies `0 ≤ reset ≤ window_seconds`.
Without these conditions `reset` can exceed the window (entry created under a
larger window) or be absent (TTL race). -/
theorem reset_bounded_single_instant (rl : RateLimiter) (key : String)
    (s : Store) (t : Int) (hw : 0 < rl.window)
    (hwf : ∀ e, liveEntry s t (rl.redis_key key) = some e →
             ∃ x, e.expiresAt = some x ∧ x ≤ t + rl.window) :
    ∃ r, (rl.check_rate_limit key s t t t).1.reset = some r
      ∧ 0 ≤ r ∧ r ≤ rl.window := by
  cases hle : liveEntry s t (rl.redis_key key) with
  | none =>
      rw [check_rate_limit_fresh rl key s t t t hle]
      exact ⟨rl.window, rfl, by omega, le_refl _⟩
  | some e =>
      obtain ⟨v, ex⟩ := e
      obtain ⟨x, hx, hxle⟩ := hwf ⟨v, ex⟩ hle
      simp only at hx
      subst hx
      have hexp := isExpired_false_of_liveEntry hle
      have htx : t < x := by
        simp only [Entry.isExpired, decide_eq_false_iff_not, not_le] at hexp
        exact hexp
      by_cases hge : rl.requests ≤ v
      · rw [check_rate_limit_reject rl key s t t t ⟨v, some x⟩ hle hge,
          redis_ttl_of_live hle htx]
        exact ⟨x - t, rfl, by omega, by omega⟩
      · have hlt : v < rl.requests := not_le.mp hge
        rw [check_rate_limit_incr rl key s t t t ⟨v, some x⟩ hle hlt]
        have hlive2 : liveEntry (redis_incr s t (rl.redis_key key)).2 t
            (rl.redis_key key) = some ⟨v + 1, some x⟩ := by
          simp only [redis_incr, hle]
          refine liveEntry_of_some (by simp) ?_
          simp only [Entry.isExpired, decide_eq_false_iff_not, not_le]
          omega
        rw [redis_ttl_of_live hlive2 htx]
        exact ⟨x - t, rfl, by omega, by omega⟩

theorem reset_bounded_single_instant_witness :
    ∃ r, ((⟨10, 60, "ip"⟩ : RateLimiter).check_rate_limit "2.2.2.2"
        emptyStore 0 0 0).1.reset = some r ∧ 0 ≤ r ∧ r ≤ 60 :=
  reset_bounded_single_instant ⟨10, 60, "ip"⟩ "2.2.2.2" emptyStore 0
    (by decide)
    (fun e he => absurd he (by simp [liveEntry, emptyStore]))

end DataCleanup
